import Mathlib

/-!
Verification development for the AegisML analytics engine.

The TypeScript core is shallowly embedded here:
* `FailureEngine` (src/lib/logic/FailureEngine.ts) over `ℚ` — its arithmetic is
  field arithmetic and comparisons only, so rationals model the intended real
  semantics of the JavaScript numbers exactly.
* `MetricsCalculator` (introspect-ai/src/lib/logic/MetricsExport.ts) over `ℚ`
  for the same reason.
* `IntrospectionModel.predictFailureRisk` and `EpisodeMemory`
  (src/lib/logic/IntrospectionModel.ts, CausalEngine.ts) over `ℝ`, since they
  use `Math.exp` / `Math.sqrt`.

Methods are translated in state-passing style: a method that assigns to no
field of `this` returns its receiver state unchanged.
-/

namespace AegisML

/-! ## FailureEngine (src/lib/logic/FailureEngine.ts) -/

namespace FailureEngine

/-- One entry of `FailureEngine.history`. -/
structure Entry where
  accuracy : ℚ
  loss : ℚ
  confidence : ℚ
deriving DecidableEq, Repr

/-- The `config` object of `FailureEngine`. -/
structure Config where
  accDegradationThresh : ℚ
  lossIncreaseThresh : ℚ
  confidenceCollapseThresh : ℚ
  windowSize : ℕ
deriving DecidableEq, Repr

/-- Constructor default config (FailureEngine.ts lines 13–18). -/
def defaultConfig : Config :=
  { accDegradationThresh := 0.15
    lossIncreaseThresh := 0.5
    confidenceCollapseThresh := 0.5
    windowSize := 5 }

/-- The mutable fields of a `FailureEngine` instance. -/
structure State where
  config : Config
  history : List Entry
  baselineAccuracy : ℚ
  baselineLoss : ℚ
deriving DecidableEq, Repr

/-- Freshly constructed engine: empty history, both baselines `0`. -/
def init (config : Config := defaultConfig) : State :=
  { config := config, history := [], baselineAccuracy := 0, baselineLoss := 0 }

/-- `update(epochData)` (lines 22–30): push onto `history`; while the
post-push history length is `< 10`, raise `baselineAccuracy` to the max and
lower `baselineLoss` to the min, the loss baseline being (re)seeded whenever
it is `0`. -/
def update (s : State) (epochData : Entry) : State :=
  if (s.history ++ [epochData]).length < 10 then
    { s with
      history := s.history ++ [epochData]
      baselineAccuracy := max s.baselineAccuracy epochData.accuracy
      baselineLoss :=
        if s.baselineLoss = 0 then epochData.loss
        else min s.baselineLoss epochData.loss }
  else
    { s with history := s.history ++ [epochData] }

/-- JavaScript `history.slice(-windowSize)`: for a positive count the last
`windowSize` entries (the whole list when shorter); `slice(-0)` is
`slice(0)`, the whole list. -/
def window (s : State) : List Entry :=
  if s.config.windowSize = 0 then s.history
  else s.history.drop (s.history.length - s.config.windowSize)

/-- `window.reduce((a, b) => a + b.accuracy, 0) / window.length`. -/
def avgAcc (w : List Entry) : ℚ := (w.map Entry.accuracy).sum / w.length

/-- `window.reduce((a, b) => a + b.loss, 0) / window.length`. -/
def avgLoss (w : List Entry) : ℚ := (w.map Entry.loss).sum / w.length

/-- `window.reduce((a, b) => a + b.confidence, 0) / window.length`. -/
def avgConf (w : List Entry) : ℚ := (w.map Entry.confidence).sum / w.length

/-- Result record of `checkFailure`. -/
structure CheckResult where
  isFailure : Bool
  failureType : Option String
  failureDuration : ℕ
deriving DecidableEq, Repr

/-- The single-entry predicate of `calculateDuration` (lines 83–85): which
rule condition entry `data` satisfies for the given failure `type`. -/
def durationMatch (s : State) (type : String) (data : Entry) : Prop :=
  if type = "ACCURACY_DEGRADATION" then
    s.config.accDegradationThresh < s.baselineAccuracy - data.accuracy
  else if type = "LOSS_DIVERGENCE" then
    s.config.lossIncreaseThresh < data.loss - s.baselineLoss
  else if type = "CONFIDENCE_COLLAPSE" then
    data.confidence < s.config.confidenceCollapseThresh
  else False

instance durationMatch.decidable (s : State) (type : String) (data : Entry) :
    Decidable (durationMatch s type data) := by
  unfold durationMatch; infer_instance

/-- The backward walk of `calculateDuration` (lines 79–89) over an explicit
list: count consecutive matching entries, stop at the first non-match. -/
def durationCount (s : State) (type : String) : List Entry → ℕ
  | [] => 0
  | data :: rest =>
    if durationMatch s type data then durationCount s type rest + 1 else 0

/-- `calculateDuration(type)`: the loop walks `history` from index
`length − 1` downward, i.e. along the reversed history. -/
def calculateDurationRes (s : State) (type : String) : ℕ :=
  durationCount s type s.history.reverse

/-- `calculateDuration` in state-passing form: the method assigns to no field
of `this`, so it returns the receiver state unchanged. -/
def calculateDuration (s : State) (type : String) : ℕ × State :=
  (calculateDurationRes s type, s)

/-- `checkFailure(currentEpoch)` (lines 32–74). The `currentEpoch` argument is
accepted and ignored, as in the source. -/
def checkFailureRes (s : State) (_currentEpoch : ℚ) : CheckResult :=
  if s.history.length < s.config.windowSize then
    { isFailure := false, failureType := none, failureDuration := 0 }
  else
    if s.config.accDegradationThresh < s.baselineAccuracy - avgAcc (window s) then
      { isFailure := true, failureType := some "ACCURACY_DEGRADATION"
        failureDuration := calculateDurationRes s "ACCURACY_DEGRADATION" }
    else if s.config.lossIncreaseThresh < avgLoss (window s) - s.baselineLoss then
      { isFailure := true, failureType := some "LOSS_DIVERGENCE"
        failureDuration := calculateDurationRes s "LOSS_DIVERGENCE" }
    else if avgConf (window s) < s.config.confidenceCollapseThresh then
      { isFailure := true, failureType := some "CONFIDENCE_COLLAPSE"
        failureDuration := calculateDurationRes s "CONFIDENCE_COLLAPSE" }
    else
      { isFailure := false, failureType := none, failureDuration := 0 }

/-- `checkFailure` in state-passing form: no field assignment occurs in the
method body, so the receiver state passes through unchanged. -/
def checkFailure (s : State) (currentEpoch : ℚ) : CheckResult × State :=
  (checkFailureRes s currentEpoch, s)

/-- Spec-side running maximum of the observed accuracies, seeded from the
first observation. -/
def runningMaxAcc : List Entry → ℚ
  | [] => 0
  | e :: t => t.foldl (fun a x => max a x.accuracy) e.accuracy

/-- Spec-side running minimum of the observed losses, seeded from the first
observed loss. -/
def runningMinLoss : List Entry → ℚ
  | [] => 0
  | e :: t => t.foldl (fun a x => min a x.loss) e.loss

end FailureEngine

/-! ## MetricsCalculator (introspect-ai/src/lib/logic/MetricsExport.ts) -/

namespace MetricsCalculator

/-- The signal-record fields read by `calculateMetrics`. -/
structure SignalRecord where
  epoch : ℚ
  gradientVariance : ℚ
  latentDrift : ℚ
  predictionEntropy : ℚ
  activationEntropy : ℚ
deriving DecidableEq, Repr

/-- The `ResearchMetrics` result record. -/
structure ResearchMetrics where
  ISS : ℚ
  PSU : ℚ
  ICC : ℚ
  FAH : ℚ
deriving DecidableEq, Repr

/-- `signals.slice(-20)`: the trailing 20 records (the whole list when
shorter). -/
def recentOf (signals : List SignalRecord) : List SignalRecord :=
  signals.drop (signals.length - 20)

/-- `Math.max(...l)` on a nonempty list is its maximum. The empty spread
yields `-Infinity`, which has no rational counterpart; the claims under
verification only concern nonempty argument lists, so the empty case is
given a placeholder `0`. -/
def jsMaxList : List ℚ → ℚ
  | [] => 0
  | h :: t => t.foldl max h

/-- `l[l.length - 1]` on a nonempty list: its last element (out-of-range
indexing of the empty list is `undefined`, placeholder `0`). -/
def jsLast (l : List ℚ) : ℚ := l.getLastD 0

/-- The detection loop of `calculateMetrics` (lines 29–36): the epoch of the
first record with `gradientVariance > 0.8` or `activationEntropy < 1.0`,
sentinel `-1` when none matches. -/
def firstDetection : List SignalRecord → ℚ
  | [] => -1
  | r :: rest =>
    if 0.8 < r.gradientVariance ∨ r.activationEntropy < 1 then r.epoch
    else firstDetection rest

/-- The confidence proxies `recent.map(s => 1.0 - s.predictionEntropy)`. -/
def confidencesOf (recent : List SignalRecord) : List ℚ :=
  recent.map (fun s => 1 - s.predictionEntropy)

/-- `calculateMetrics(signals, failureEpoch)` (lines 10–43). JavaScript
truthiness: in the `failureEpoch ? _ : _` tests, `null` and `0` are both
falsy, hence the `fe ≠ 0` guards. -/
def calculateMetrics (signals : List SignalRecord) (failureEpoch : Option ℚ) :
    ResearchMetrics :=
  let recent := recentOf signals
  let gradVar := (recent.map SignalRecord.gradientVariance).sum / recent.length
  let drift := (recent.map SignalRecord.latentDrift).sum / recent.length
  let ISS := 1 / (1 + gradVar + drift)
  let PSU := (recent.map SignalRecord.predictionEntropy).sum / recent.length
  let confidences := confidencesOf recent
  let maxConf := jsMaxList confidences
  let currConf := jsLast confidences
  let ICC := max 0 (maxConf - currConf)
  let fd := firstDetection signals
  let FAH :=
    match failureEpoch with
    | none => 0
    | some fe =>
      if fe ≠ 0 ∧ fd ≠ -1 ∧ fd < fe then fe - fd
      else if fe ≠ 0 then 15 else 0
  { ISS := ISS, PSU := PSU, ICC := ICC, FAH := FAH }

/-- Spec-side first detection: the epoch of the first record with
`gradientVariance > 0.8` or `activationEntropy < 1.0`, `none` when no record
matches (no `-1` sentinel). -/
def firstDetectionSpec : List SignalRecord → Option ℚ
  | [] => none
  | r :: rest =>
    if 0.8 < r.gradientVariance ∨ r.activationEntropy < 1 then some r.epoch
    else firstDetectionSpec rest

end MetricsCalculator

/-! ## IntrospectionModel (src/lib/logic/IntrospectionModel.ts) -/

namespace IntrospectionModel

/-- The signal fields read by `predictFailureRisk`. -/
structure Signals where
  gradientNorm : ℝ
  activationEntropy : ℝ
  latentDrift : ℝ
  confidenceDispersion : ℝ

/-- The `weights` field: one weight per signal family. -/
structure Weights where
  gradient : ℝ
  activation : ℝ
  entropy : ℝ
  latent : ℝ

/-- The constructor-time weights (lines 15–20): all `1.0`. -/
def initWeights : Weights :=
  { gradient := 1, activation := 1, entropy := 1, latent := 1 }

/-- `setAblations(ablations)` (lines 22–30): rebuild the weight vector, a
named family getting weight `0` exactly when it is in the ablation list. -/
def setAblations (ablations : List String) : Weights :=
  { gradient := if "gradient" ∈ ablations then 0 else 1
    activation := if "activation" ∈ ablations then 0 else 1
    entropy := if "entropy" ∈ ablations then 0 else 1
    latent := if "latent" ∈ ablations then 0 else 1 }

/-- The result record of `predictFailureRisk`. -/
structure RiskAssessment where
  score : ℝ
  level : String
  confidenceLower : ℝ
  confidenceUpper : ℝ

/-- `predictFailureRisk(signals)` (lines 39–92). Each `riskScore +=` line is
guarded by `if (weight > 0)`; the uncertainty line reads
`(signals.confidenceDispersion || 0.1) * 0.5`, where `||` replaces the falsy
value `0` by `0.1`. -/
noncomputable def predictFailureRisk (w : Weights) (signals : Signals) :
    RiskAssessment :=
  let riskScore :=
    (if 0 < w.gradient then max 0 (signals.gradientNorm - 0.8) * 0.5 * w.gradient else 0)
    + (if 0 < w.activation then max 0 (1 - signals.activationEntropy) * 0.4 * w.activation else 0)
    + (if 0 < w.latent then max 0 (signals.latentDrift - 1) * 0.8 * w.latent else 0)
    + (if 0 < w.entropy then max 0 (0.2 - signals.confidenceDispersion) * 0.5 * w.entropy else 0)
  let probability := 1 / (1 + Real.exp (-4 * (riskScore - 0.3)))
  let level :=
    if 0.8 < probability then "Critical"
    else if 0.6 < probability then "Elevated"
    else if 0.3 < probability then "Emerging"
    else "Low"
  let uncertainty :=
    min 0.2 ((if signals.confidenceDispersion = 0 then 0.1
              else signals.confidenceDispersion) * 0.5)
  { score := probability
    level := level
    confidenceLower := max 0 (probability - uncertainty)
    confidenceUpper := min 1 (probability + uncertainty) }

/-- Spec-side uncertainty formula amended to account for the `|| 0.1`
fallback: `min(0.2, d' × 0.5)` with `d'` the dispersion, replaced by `0.1`
when it is `0`. -/
noncomputable def uncertaintySpec (d : ℝ) : ℝ :=
  min 0.2 ((if d = 0 then 0.1 else d) * 0.5)

end IntrospectionModel

/-! ## EpisodeMemory (src/lib/logic/CausalEngine.ts, second module) -/

namespace EpisodeMemory

/-- The snapshot fields read by `findSimilar`. -/
structure Snapshot where
  gradientNorm : ℝ
  activationEntropy : ℝ

/-- A stored episode. -/
structure Episode where
  id : String
  timestamp : ℝ
  failureType : String
  signalSnapshot : Snapshot
  outcome : String

/-- The constructor seeds (lines 82–98): two synthetic past episodes, with
timestamps relative to the construction-time `Date.now()`. -/
def init (now : ℝ) : List Episode :=
  [ { id := "mem-001", timestamp := now - 1000000, failureType := "gradient_explosion"
      signalSnapshot := { gradientNorm := 2.5, activationEntropy := 0.4 }
      outcome := "failed" }
  , { id := "mem-002", timestamp := now - 500000, failureType := "collapse"
      signalSnapshot := { gradientNorm := 0.5, activationEntropy := 0.1 }
      outcome := "failed" } ]

/-- `addEpisode(episode)` (lines 100–103): push, then `shift()` (drop the
oldest, i.e. the head) when the size exceeds 100. -/
def addEpisode (episodes : List Episode) (episode : Episode) : List Episode :=
  if 100 < (episodes ++ [episode]).length then (episodes ++ [episode]).tail
  else episodes ++ [episode]

/-- `TIME_SCALE = 1000 * 60 * 60 * 24`: one day in milliseconds. -/
def TIME_SCALE : ℝ := 1000 * 60 * 60 * 24

/-- The Euclidean distance of `findSimilar` (lines 111–114), over exactly the
pair (gradientNorm, activationEntropy). -/
noncomputable def distOf (current : Snapshot) (e : Episode) : ℝ :=
  Real.sqrt ((e.signalSnapshot.gradientNorm - current.gradientNorm) ^ 2
    + (e.signalSnapshot.activationEntropy - current.activationEntropy) ^ 2)

/-- `rawSim = 1 / (1 + dist)` (line 122). -/
noncomputable def rawSimOf (current : Snapshot) (e : Episode) : ℝ :=
  1 / (1 + distOf current e)

/-- `decay = Math.exp(-age / TIME_SCALE)` (lines 117–118). -/
noncomputable def decayOf (now : ℝ) (e : Episode) : ℝ :=
  Real.exp (-(now - e.timestamp) / TIME_SCALE)

/-- One element of the mapped list of `findSimilar` (lines 110–125). -/
structure Scored where
  episode : Episode
  similarity : ℝ
  metric : String

/-- The per-episode body of the `map` in `findSimilar`. -/
noncomputable def scoreEpisode (now : ℝ) (current : Snapshot) (e : Episode) :
    Scored :=
  { episode := e
    similarity := rawSimOf current e * (0.9 + 0.1 * decayOf now e)
    metric := "Weighted Euclidean" }

/-- The comparator order of `.sort((a, b) => b.similarity - a.similarity)`:
descending similarity. -/
def simGE (a b : Scored) : Prop := b.similarity ≤ a.similarity

noncomputable instance simGE.decidable : DecidableRel simGE := fun a b =>
  inferInstanceAs (Decidable (b.similarity ≤ a.similarity))

instance simGE.total : IsTotal Scored simGE :=
  ⟨fun a b => le_total b.similarity a.similarity⟩

instance simGE.trans : IsTrans Scored simGE :=
  ⟨fun _ _ _ hab hbc => le_trans hbc hab⟩

/-- `findSimilar(currentSignal)` (lines 105–129): score every stored episode,
sort by similarity descending, take the top 3. -/
noncomputable def findSimilar (episodes : List Episode) (now : ℝ)
    (current : Snapshot) : List Scored :=
  (List.insertionSort simGE (episodes.map (scoreEpisode now current))).take 3

end EpisodeMemory

end AegisML

/-! ## Theorems -/

section FailureEngineTheorems
open AegisML.FailureEngine

/-- Helper: while the post-append history stays below 10 entries, a fold of
`update` folds the baselines with `max` on accuracy and the seeded-`min`
step on loss, and appends to the history. -/
theorem foldl_update_below_ten (es : List Entry) :
    ∀ s : State, s.history.length + es.length < 10 →
      (es.foldl update s).baselineAccuracy
          = es.foldl (fun a x => max a x.accuracy) s.baselineAccuracy
        ∧ (es.foldl update s).baselineLoss
          = es.foldl (fun a x => if a = 0 then x.loss else min a x.loss)
              s.baselineLoss
        ∧ (es.foldl update s).history = s.history ++ es := by
  induction es with
  | nil => intro s _; simp
  | cons e t ih =>
    intro s hlen
    have hstep : (s.history ++ [e]).length < 10 := by
      simp only [List.length_append, List.length_singleton]
      simp only [List.length_cons] at hlen
      omega
    have hupd : update s e =
        { s with
          history := s.history ++ [e]
          baselineAccuracy := max s.baselineAccuracy e.accuracy
          baselineLoss :=
            if s.baselineLoss = 0 then e.loss
            else min s.baselineLoss e.loss } := by
      simp only [update]
      rw [if_pos hstep]
    have hlen' :
        (update s e).history.length + t.length < 10 := by
      rw [hupd]
      simp only [List.length_append, List.length_singleton]
      simp only [List.length_cons] at hlen
      omega
    obtain ⟨h1, h2, h3⟩ := ih (update s e) hlen'
    refine ⟨?_, ?_, ?_⟩
    · simp only [List.foldl_cons]
      rw [h1, hupd]
    · simp only [List.foldl_cons]
      rw [h2, hupd]
    · simp only [List.foldl_cons]
      rw [h3, hupd]
      simp

/-- Helper: an update on a history that already has at least 9 entries only
appends; it leaves the config and both baselines untouched. -/
theorem update_frozen (s : State) (e : Entry)
    (h : ¬ (s.history ++ [e]).length < 10) :
    update s e = { s with history := s.history ++ [e] } := by
  simp only [update]
  rw [if_neg h]

/-- Helper: once the accumulator is positive and all losses are positive, the
seeded-`min` step coincides with plain running `min`. -/
theorem lossFold_eq_minFold (es : List Entry) :
    ∀ a : ℚ, 0 < a → (∀ e ∈ es, 0 < e.loss) →
      es.foldl (fun a x => if a = 0 then x.loss else min a x.loss) a
        = es.foldl (fun a x => min a x.loss) a := by
  induction es with
  | nil => intro a _ _; rfl
  | cons e t ih =>
    intro a ha hpos
    have hne : a ≠ 0 := ne_of_gt ha
    have hstep : 0 < min a e.loss :=
      lt_min ha (hpos e (List.mem_cons_self e t))
    simp only [List.foldl_cons, if_neg hne]
    exact ih (min a e.loss) hstep fun x hx => hpos x (List.mem_cons_of_mem e hx)

/-- Claim C1 (amended): starting from a fresh engine, during each of the
first 9 updates (those for which the post-append history length is below 10)
`baselineAccuracy` is the running maximum of the observed accuracies and,
provided the observed accuracies are nonnegative and the observed losses
positive, `baselineLoss` is the running minimum of the observed losses seeded
from the first observed loss; and every update performed on a history that
already has at least 9 entries leaves both baselines unchanged. -/
theorem update_baseline_window_amended :
    (∀ es : List Entry, es.length ≤ 9 →
      (∀ e ∈ es, 0 ≤ e.accuracy) → (∀ e ∈ es, 0 < e.loss) →
        (es.foldl update (init)).baselineAccuracy = runningMaxAcc es
        ∧ (es.foldl update (init)).baselineLoss = runningMinLoss es)
    ∧ (∀ (s : State) (e : Entry), 9 ≤ s.history.length →
        (update s e).baselineAccuracy = s.baselineAccuracy
        ∧ (update s e).baselineLoss = s.baselineLoss) := by
  constructor
  · intro es hlen hacc hloss
    have h0 : (init).history.length + es.length < 10 := by
      simp only [init, List.length_nil, Nat.zero_add]
      omega
    obtain ⟨h1, h2, _⟩ := foldl_update_below_ten es (init) h0
    constructor
    · rw [h1]
      cases es with
      | nil => rfl
      | cons e t =>
        simp only [runningMaxAcc, List.foldl_cons, init]
        have : max (0 : ℚ) e.accuracy = e.accuracy :=
          max_eq_right (hacc e (List.mem_cons_self e t))
        rw [this]
    · rw [h2]
      cases es with
      | nil => rfl
      | cons e t =>
        simp only [runningMinLoss, List.foldl_cons, init, if_pos rfl]
        exact lossFold_eq_minFold t e.loss
          (hloss e (List.mem_cons_self e t))
          (fun x hx => hloss x (List.mem_cons_of_mem e hx))
  · intro s e hlen
    have h : ¬ (s.history ++ [e]).length < 10 := by
      simp only [List.length_append, List.length_singleton]
      omega
    rw [update_frozen s e h]
    exact ⟨rfl, rfl⟩

/-- Witness for the amended claim C1, at one concrete warm-up update and one
concrete post-warm-up update. -/
theorem update_baseline_window_amended_witness :
    (([({ accuracy := 1, loss := 2, confidence := 1 } : Entry)].foldl update
        (init)).baselineAccuracy
      = runningMaxAcc [{ accuracy := 1, loss := 2, confidence := 1 }]
    ∧ ([({ accuracy := 1, loss := 2, confidence := 1 } : Entry)].foldl update
        (init)).baselineLoss
      = runningMinLoss [{ accuracy := 1, loss := 2, confidence := 1 }])
    ∧ ((update
        { config := defaultConfig
          history := List.replicate 9 ({ accuracy := 1, loss := 2, confidence := 1 } : Entry)
          baselineAccuracy := 1, baselineLoss := 2 }
        { accuracy := 3, loss := 1, confidence := 1 }).baselineAccuracy = 1
      ∧ (update
        { config := defaultConfig
          history := List.replicate 9 ({ accuracy := 1, loss := 2, confidence := 1 } : Entry)
          baselineAccuracy := 1, baselineLoss := 2 }
        { accuracy := 3, loss := 1, confidence := 1 }).baselineLoss = 2) := by
  refine ⟨update_baseline_window_amended.1 _ (by norm_num)
      (by intro e he; simp at he; rw [he]; norm_num)
      (by intro e he; simp at he; rw [he]; norm_num),
    update_baseline_window_amended.2 _ _ (by simp)⟩

/-- Counterexample to claim C1 as stated: after nine updates with accuracy 1
the tenth update reports accuracy 3, yet `baselineAccuracy` stays 1 — the
baseline is not the running maximum over the first 10 updates, because the
warm-up test `history.length < 10` runs after the push and so admits only the
first 9 updates. -/
theorem update_baseline_window_counterexample :
    ((List.replicate 9 ({ accuracy := 1, loss := 2, confidence := 1 } : Entry)
        ++ [({ accuracy := 3, loss := 1, confidence := 1 } : Entry)]).foldl update
          (init)).baselineAccuracy = 1
    ∧ ((1 : ℚ) = 3) = False := by
  constructor
  · have h9 : (init).history.length
        + (List.replicate 9 ({ accuracy := 1, loss := 2, confidence := 1 } : Entry)).length
        < 10 := by simp [init]
    obtain ⟨hfold, -, hhist⟩ := foldl_update_below_ten _ (init) h9
    rw [List.foldl_append]
    set s9 := (List.replicate 9
      ({ accuracy := 1, loss := 2, confidence := 1 } : Entry)).foldl update (init)
      with hs9
    have hlen9 : s9.history.length = 9 := by
      rw [hhist]; simp [init]
    have hnot : ¬ (s9.history
        ++ [({ accuracy := 3, loss := 1, confidence := 1 } : Entry)]).length < 10 := by
      simp [hlen9]
    have hstep : List.foldl update s9
        [({ accuracy := 3, loss := 1, confidence := 1 } : Entry)]
        = update s9 { accuracy := 3, loss := 1, confidence := 1 } := rfl
    rw [hstep, update_frozen _ _ hnot]
    show s9.baselineAccuracy = 1
    rw [hfold]
    norm_num [init, List.replicate_succ, max_def]
  · norm_num

/-- Claim C3: whenever the history has at least `windowSize` entries (the
window being nonempty) and, on the trailing window, both the
accuracy-degradation condition and the loss-divergence condition hold,
`checkFailure` reports a failure of type `ACCURACY_DEGRADATION` — rule 1 is
checked before rule 2 and wins. -/
theorem checkFailure_rule_priority :
    ∀ (s : State) (n : ℚ),
      0 < s.config.windowSize →
      s.config.windowSize ≤ s.history.length →
      s.config.accDegradationThresh < s.baselineAccuracy - avgAcc (window s) →
      s.config.lossIncreaseThresh < avgLoss (window s) - s.baselineLoss →
      (checkFailure s n).1.isFailure = true
      ∧ (checkFailure s n).1.failureType = some "ACCURACY_DEGRADATION" := by
  intro s n _ hlen hacc _
  have h1 : ¬ s.history.length < s.config.windowSize := not_lt.2 hlen
  simp only [checkFailure, checkFailureRes]
  rw [if_neg h1, if_pos hacc]
  exact ⟨rfl, rfl⟩

/-- Witness for claim C3: a concrete engine state on which both the accuracy
and loss window conditions hold and the verdict is `ACCURACY_DEGRADATION`. -/
theorem checkFailure_rule_priority_witness :
    (checkFailure
      { config := defaultConfig
        history :=
          [ ({ accuracy := 0, loss := 10, confidence := 1 } : Entry)
          , { accuracy := 0, loss := 10, confidence := 1 }
          , { accuracy := 0, loss := 10, confidence := 1 }
          , { accuracy := 0, loss := 10, confidence := 1 }
          , { accuracy := 0, loss := 10, confidence := 1 } ]
        baselineAccuracy := 1, baselineLoss := 1 } 7).1.isFailure = true
    ∧ (checkFailure
      { config := defaultConfig
        history :=
          [ ({ accuracy := 0, loss := 10, confidence := 1 } : Entry)
          , { accuracy := 0, loss := 10, confidence := 1 }
          , { accuracy := 0, loss := 10, confidence := 1 }
          , { accuracy := 0, loss := 10, confidence := 1 }
          , { accuracy := 0, loss := 10, confidence := 1 } ]
        baselineAccuracy := 1, baselineLoss := 1 } 7).1.failureType
      = some "ACCURACY_DEGRADATION" := by
  refine checkFailure_rule_priority _ 7 (by norm_num [defaultConfig])
    (by norm_num [defaultConfig])
    (by norm_num [defaultConfig, window, avgAcc])
    (by norm_num [defaultConfig, window, avgLoss])

/-- Claim C8: `checkFailure` and `calculateDuration` pass the engine state
through unchanged, and `update` appends exactly one entry — the previously
appended entries (the old history prefix) and the config are untouched. -/
theorem engine_frame_conditions :
    ∀ (s : State) (n : ℚ) (t : String) (e : Entry),
      (checkFailure s n).2 = s
      ∧ (calculateDuration s t).2 = s
      ∧ (update s e).config = s.config
      ∧ (update s e).history = s.history ++ [e]
      ∧ (update s e).history.take s.history.length = s.history := by
  intro s n t e
  have hconf : (update s e).config = s.config := by
    simp only [update]
    split <;> rfl
  have hhist : (update s e).history = s.history ++ [e] := by
    simp only [update]
    split <;> rfl
  refine ⟨rfl, rfl, hconf, hhist, ?_⟩
  rw [hhist]
  simp

end FailureEngineTheorems

section MetricsCalculatorTheorems
open AegisML.MetricsCalculator

/-- Helper: with nonnegative epochs, the sentinel-based detection loop and
the `Option`-valued detection agree — `-1` exactly when no record matches,
and the matched epoch (which is then nonnegative) otherwise. -/
theorem firstDetection_agrees (signals : List SignalRecord)
    (h : ∀ r ∈ signals, 0 ≤ r.epoch) :
    (firstDetectionSpec signals = none ∧ firstDetection signals = -1)
    ∨ ∃ d, firstDetectionSpec signals = some d ∧ firstDetection signals = d
        ∧ 0 ≤ d := by
  induction signals with
  | nil => exact Or.inl ⟨rfl, rfl⟩
  | cons r rest ih =>
    by_cases hc : 0.8 < r.gradientVariance ∨ r.activationEntropy < 1
    · refine Or.inr ⟨r.epoch, ?_, ?_, h r (List.mem_cons_self r rest)⟩
      · simp [firstDetectionSpec, hc]
      · simp [firstDetection, hc]
    · rcases ih (fun x hx => h x (List.mem_cons_of_mem r hx)) with
        ⟨h1, h2⟩ | ⟨d, h1, h2, h3⟩
      · refine Or.inl ⟨?_, ?_⟩
        · simp [firstDetectionSpec, hc, h1]
        · simp [firstDetection, hc, h2]
      · refine Or.inr ⟨d, ?_, ?_, h3⟩
        · simp [firstDetectionSpec, hc, h1]
        · simp [firstDetection, hc, h2]

/-- Claim C4 (amended): for records with nonnegative epochs, when a nonzero
`failureEpoch` is supplied `calculateMetrics` returns
FAH = failureEpoch − firstDetection if a detection exists strictly before
the failure epoch, and the fallback 15 otherwise (no detection, or a
detection at or after the failure epoch); when `failureEpoch` is `null`,
FAH = 0. A supplied failure epoch of `0` is falsy in the source's ternary
and behaves like `null`, hence the `fe ≠ 0` hypothesis. -/
theorem calculateMetrics_fah_amended :
    (∀ (signals : List SignalRecord) (fe : ℚ), fe ≠ 0 →
      (∀ r ∈ signals, 0 ≤ r.epoch) →
      (calculateMetrics signals (some fe)).FAH =
        match firstDetectionSpec signals with
        | some d => if d < fe then fe - d else 15
        | none => 15)
    ∧ (∀ signals : List SignalRecord, (calculateMetrics signals none).FAH = 0) := by
  constructor
  · intro signals fe hfe hpos
    have hfah : (calculateMetrics signals (some fe)).FAH =
        (if fe ≠ 0 ∧ firstDetection signals ≠ -1 ∧ firstDetection signals < fe
         then fe - firstDetection signals
         else if fe ≠ 0 then 15 else 0) := rfl
    rcases firstDetection_agrees signals hpos with ⟨h1, h2⟩ | ⟨d, h1, h2, h3⟩
    · rw [hfah, h1, h2]
      simp [hfe]
    · have hne : d ≠ -1 := by
        intro hcon
        rw [hcon] at h3
        norm_num at h3
      rw [hfah, h1, h2]
      by_cases hlt : d < fe
      · simp [hfe, hne, hlt]
      · simp [hfe, hne, hlt]
  · intro signals
    rfl

/-- Witness for the amended claim C4: one record detected at epoch 2 with
failure epoch 5 gives FAH = 3, and a `null` failure epoch gives FAH = 0. -/
theorem calculateMetrics_fah_amended_witness :
    ((calculateMetrics
      [{ epoch := 2, gradientVariance := 1, latentDrift := 0
         predictionEntropy := 0, activationEntropy := 2 }] (some 5)).FAH =
      match firstDetectionSpec
        [{ epoch := 2, gradientVariance := 1, latentDrift := 0
           predictionEntropy := 0, activationEntropy := 2 }] with
      | some d => if d < 5 then 5 - d else 15
      | none => 15)
    ∧ (calculateMetrics ([] : List SignalRecord) none).FAH = 0 := by
  refine ⟨calculateMetrics_fah_amended.1 _ 5 (by norm_num) ?_,
    calculateMetrics_fah_amended.2 []⟩
  intro r hr
  simp only [List.mem_singleton] at hr
  rw [hr]
  norm_num

/-- Counterexample to claim C4 as stated: a supplied failure epoch of `0`
with no valid detection yields FAH = 0, not the claimed fallback 15 — `0` is
falsy, so the code treats it like a missing failure epoch. -/
theorem calculateMetrics_fah_counterexample :
    (calculateMetrics
      [{ epoch := 3, gradientVariance := 0, latentDrift := 0
         predictionEntropy := 0, activationEntropy := 2 }] (some 0)).FAH = 0
    ∧ ((0 : ℚ) = 15) = False := by
  constructor
  · norm_num [calculateMetrics]
  · norm_num

/-- Claim C9: a supplied failure epoch of `0` is treated exactly like a
missing one — FAH is 0 even when a detection record exists. -/
theorem calculateMetrics_fah_zero_epoch :
    ∀ signals : List SignalRecord, signals ≠ [] →
      (calculateMetrics signals (some 0)).FAH = 0 := by
  intro signals _
  norm_num [calculateMetrics]

/-- Witness for claim C9: a record that is a valid detection
(gradientVariance 1 > 0.8) still yields FAH = 0 under failure epoch 0. -/
theorem calculateMetrics_fah_zero_epoch_witness :
    (calculateMetrics
      [{ epoch := 1, gradientVariance := 1, latentDrift := 0
         predictionEntropy := 0, activationEntropy := 2 }] (some 0)).FAH = 0 :=
  calculateMetrics_fah_zero_epoch _ (by simp)

/-- Helper: a left fold of `max` only grows its accumulator. -/
theorem foldl_max_le_init (t : List ℚ) : ∀ a : ℚ, a ≤ t.foldl max a := by
  induction t with
  | nil => intro a; exact le_refl a
  | cons b t ih => intro a; exact le_trans (le_max_left a b) (ih (max a b))

/-- Helper: every list member is bounded by a left fold of `max`. -/
theorem mem_le_foldl_max (t : List ℚ) :
    ∀ (a x : ℚ), x ∈ t → x ≤ t.foldl max a := by
  induction t with
  | nil => intro a x hx; cases hx
  | cons b t ih =>
    intro a x hx
    rcases List.mem_cons.1 hx with h | h
    · rw [h]
      exact le_trans (le_max_right a b) (foldl_max_le_init t (max a b))
    · exact ih (max a b) x h

/-- Helper: `Math.max(...l)` bounds every member of `l`. -/
theorem le_jsMaxList (l : List ℚ) (x : ℚ) (hx : x ∈ l) : x ≤ jsMaxList l := by
  cases l with
  | nil => cases hx
  | cons h t =>
    rcases List.mem_cons.1 hx with hh | hh
    · rw [hh]
      exact foldl_max_le_init t h
    · exact mem_le_foldl_max t h x hh

/-- Helper: `getLastD` lands in the list extended by its fallback. -/
theorem getLastD_mem_fallback_cons (t : List ℚ) :
    ∀ h : ℚ, t.getLastD h ∈ h :: t := by
  induction t with
  | nil => intro h; simp
  | cons b t ih =>
    intro h
    rw [List.getLastD_cons]
    exact List.mem_cons_of_mem h (ih b)

/-- Helper: the last element of a nonempty list is a member. -/
theorem jsLast_mem (l : List ℚ) (hl : l ≠ []) : jsLast l ∈ l := by
  cases l with
  | nil => exact absurd rfl hl
  | cons h t =>
    show (h :: t).getLastD 0 ∈ h :: t
    rw [List.getLastD_cons]
    exact getLastD_mem_fallback_cons t h

/-- Claim C10: on a nonempty signal list the `recent` window is nonempty, so
the ISS and PSU denominators are nonzero and the maximum behind ICC ranges
over a nonempty set; the `max(0, ·)` clamp on ICC is redundant because the
last confidence is itself in the window, and ICC ≥ 0 follows. On the empty
list the window is empty and the averages divide by zero. -/
theorem calculateMetrics_welldefined :
    (∀ (signals : List SignalRecord) (fe : Option ℚ), signals ≠ [] →
      (recentOf signals).length ≠ 0
      ∧ (calculateMetrics signals fe).ICC
          = jsMaxList (confidencesOf (recentOf signals))
            - jsLast (confidencesOf (recentOf signals))
      ∧ 0 ≤ (calculateMetrics signals fe).ICC)
    ∧ (recentOf ([] : List SignalRecord)).length = 0 := by
  constructor
  · intro signals fe hne
    have hlen : (recentOf signals).length ≠ 0 := by
      unfold recentOf
      rw [List.length_drop]
      have h0 : signals.length ≠ 0 := fun hc => hne (List.length_eq_zero.1 hc)
      omega
    have hconf_ne : confidencesOf (recentOf signals) ≠ [] := by
      unfold confidencesOf
      intro hc
      apply hlen
      have := congrArg List.length hc
      simpa using this
    have hcm : jsLast (confidencesOf (recentOf signals))
        ≤ jsMaxList (confidencesOf (recentOf signals)) :=
      le_jsMaxList _ _ (jsLast_mem _ hconf_ne)
    have hicc : (calculateMetrics signals fe).ICC
        = max 0 (jsMaxList (confidencesOf (recentOf signals))
            - jsLast (confidencesOf (recentOf signals))) := rfl
    refine ⟨hlen, ?_, ?_⟩
    · rw [hicc]
      exact max_eq_right (sub_nonneg.2 hcm)
    · rw [hicc]
      exact le_max_left 0 _
  · rfl

/-- Witness for claim C10 at a concrete one-record list. -/
theorem calculateMetrics_welldefined_witness :
    (recentOf
      [{ epoch := 1, gradientVariance := 0, latentDrift := 0
         predictionEntropy := 0, activationEntropy := 2 }]).length ≠ 0
    ∧ (calculateMetrics
        [{ epoch := 1, gradientVariance := 0, latentDrift := 0
           predictionEntropy := 0, activationEntropy := 2 }] none).ICC
        = jsMaxList (confidencesOf (recentOf
            [{ epoch := 1, gradientVariance := 0, latentDrift := 0
               predictionEntropy := 0, activationEntropy := 2 }]))
          - jsLast (confidencesOf (recentOf
            [{ epoch := 1, gradientVariance := 0, latentDrift := 0
               predictionEntropy := 0, activationEntropy := 2 }]))
    ∧ 0 ≤ (calculateMetrics
        [{ epoch := 1, gradientVariance := 0, latentDrift := 0
           predictionEntropy := 0, activationEntropy := 2 }] none).ICC :=
  calculateMetrics_welldefined.1 _ none (by simp)

end MetricsCalculatorTheorems

section IntrospectionModelTheorems
open AegisML.IntrospectionModel

/-- Claim C2 (amended): the returned bounds clamp `probability ∓ uncertainty`
to [0, 1], where the uncertainty is `min(0.2, d' × 0.5)` with `d'` the
confidence dispersion replaced by the `|| 0.1` fallback when it is `0`; in
particular a dispersion of `0` yields uncertainty `0.05`, not `0`. -/
theorem predictFailureRisk_bounds_amended :
    ∀ (w : Weights) (s : Signals),
      (predictFailureRisk w s).confidenceLower
        = max 0 ((predictFailureRisk w s).score
            - uncertaintySpec s.confidenceDispersion)
      ∧ (predictFailureRisk w s).confidenceUpper
        = min 1 ((predictFailureRisk w s).score
            + uncertaintySpec s.confidenceDispersion)
      ∧ uncertaintySpec 0 = 0.05 := by
  intro w s
  refine ⟨rfl, rfl, ?_⟩
  norm_num [uncertaintySpec, min_def]

/-- Counterexample to claim C2 as stated: at confidence dispersion `0` the
code's uncertainty is `min(0.2, 0.1 × 0.5) = 0.05` (because `0` is falsy in
`signals.confidenceDispersion || 0.1`), not `0` — so `confidenceUpper`
differs from the probability. At this input the risk score is exactly `0.3`,
making the probability `sigmoid(0) = 1/2` and the upper bound `0.55`. -/
theorem predictFailureRisk_zero_dispersion_counterexample :
    (predictFailureRisk initWeights
      { gradientNorm := 1.2, activationEntropy := 1, latentDrift := 1
        confidenceDispersion := 0 }).confidenceUpper
    ≠ (predictFailureRisk initWeights
      { gradientNorm := 1.2, activationEntropy := 1, latentDrift := 1
        confidenceDispersion := 0 }).score := by
  simp only [predictFailureRisk, initWeights]
  norm_num [max_def, min_def, Real.exp_zero]

/-- Claim C5: with all four ablations active every weight is `0`, so the risk
score ignores the signals entirely: any two inputs get the same score, namely
`sigmoid(4 × (0 − 0.3)) = 1 / (1 + exp 1.2) ≈ 0.2315`. -/
theorem predictFailureRisk_ablated_constant :
    ∀ s₁ s₂ : Signals,
      (predictFailureRisk
          (setAblations ["gradient", "activation", "entropy", "latent"]) s₁).score
        = (predictFailureRisk
          (setAblations ["gradient", "activation", "entropy", "latent"]) s₂).score
      ∧ (predictFailureRisk
          (setAblations ["gradient", "activation", "entropy", "latent"]) s₁).score
        = 1 / (1 + Real.exp 1.2) := by
  have hw : setAblations ["gradient", "activation", "entropy", "latent"]
      = { gradient := 0, activation := 0, entropy := 0, latent := 0 } := by
    simp [setAblations]
  have hsc : ∀ s : Signals,
      (predictFailureRisk
        { gradient := 0, activation := 0, entropy := 0, latent := 0 } s).score
        = 1 / (1 + Real.exp 1.2) := by
    intro s
    simp only [predictFailureRisk]
    norm_num
  intro s₁ s₂
  rw [hw]
  exact ⟨(hsc s₁).trans (hsc s₂).symm, hsc s₁⟩

end IntrospectionModelTheorems

section EpisodeMemoryTheorems
open AegisML.EpisodeMemory

/-- Claim C6: `findSimilar` returns at most 3 results, sorted by similarity
descending; each result is the score of some stored episode, with similarity
`(1/(1+d)) × (0.9 + 0.1 × exp(−age/1day))`, and the decay factor costs at
most 10% of the raw similarity. -/
theorem findSimilar_spec :
    ∀ (episodes : List Episode) (now : ℝ) (current : Snapshot),
      (findSimilar episodes now current).length ≤ 3
      ∧ ((findSimilar episodes now current).map Scored.similarity).Sorted (· ≥ ·)
      ∧ (findSimilar episodes now current).Forall (fun x =>
          ∃ e, e ∈ episodes ∧ x = scoreEpisode now current e
            ∧ 0.9 * rawSimOf current e ≤ x.similarity) := by
  intro eps now cur
  refine ⟨List.length_take_le 3 _, ?_, ?_⟩
  · have hs : List.Sorted simGE
        (List.insertionSort simGE (eps.map (scoreEpisode now cur))) :=
      List.sorted_insertionSort simGE _
    have hs3 : List.Sorted simGE (findSimilar eps now cur) :=
      hs.sublist (List.take_sublist 3 _)
    exact List.pairwise_map.2 hs3
  · rw [List.forall_iff_forall_mem]
    intro x hx
    have hx' : x ∈ List.insertionSort simGE (eps.map (scoreEpisode now cur)) :=
      (List.take_sublist 3 _).subset hx
    have hx'' : x ∈ eps.map (scoreEpisode now cur) :=
      (List.perm_insertionSort simGE _).mem_iff.1 hx'
    obtain ⟨e, he, hxe⟩ := List.mem_map.1 hx''
    refine ⟨e, he, hxe.symm, ?_⟩
    rw [← hxe]
    show 0.9 * rawSimOf cur e
      ≤ rawSimOf cur e * (0.9 + 0.1 * decayOf now e)
    have hraw : 0 ≤ rawSimOf cur e := by
      unfold rawSimOf
      have hd : (0 : ℝ) ≤ distOf cur e := Real.sqrt_nonneg _
      exact div_nonneg zero_le_one (by linarith)
    have hdec : 0 ≤ decayOf now e := le_of_lt (Real.exp_pos _)
    nlinarith [hraw, hdec]

/-- Claim C7: starting from the freshly constructed memory (2 seed episodes),
any sequence of `addEpisode` calls keeps the store at ≤ 100 episodes; and an
`addEpisode` on a full store of 100 evicts exactly the oldest episode (the
head), preserving FIFO order. -/
theorem addEpisode_capacity_fifo :
    (∀ (now : ℝ) (calls : List Episode),
      (calls.foldl addEpisode (init now)).length ≤ 100)
    ∧ (∀ (l : List Episode) (e : Episode), l.length = 100 →
        addEpisode l e = l.tail ++ [e]) := by
  constructor
  · have hstep : ∀ (l : List Episode) (e : Episode),
        l.length ≤ 100 → (addEpisode l e).length ≤ 100 := by
      intro l e _
      unfold addEpisode
      by_cases h : 100 < (l ++ [e]).length
      · rw [if_pos h, List.length_tail, List.length_append]
        simp only [List.length_singleton]
        omega
      · rw [if_neg h]
        exact not_lt.1 h
    have hinv : ∀ (calls : List Episode) (l : List Episode),
        l.length ≤ 100 → (calls.foldl addEpisode l).length ≤ 100 := by
      intro calls
      induction calls with
      | nil => intro l hl; exact hl
      | cons c rest ih =>
        intro l hl
        exact ih (addEpisode l c) (hstep l c hl)
    intro now calls
    exact hinv calls (init now) (by norm_num [init])
  · intro l e hl
    have hlen : 100 < (l ++ [e]).length := by
      rw [List.length_append, hl]
      norm_num
    unfold addEpisode
    rw [if_pos hlen]
    cases l with
    | nil => simp at hl
    | cons h t => rfl

/-- Witness for claim C7: the empty call sequence on a fresh memory, and one
eviction on a concrete full store of 100 identical episodes. -/
theorem addEpisode_capacity_fifo_witness :
    ((([] : List Episode).foldl addEpisode (init 0)).length ≤ 100)
    ∧ (addEpisode
        (List.replicate 100
          ({ id := "e", timestamp := 0, failureType := "none"
             signalSnapshot := { gradientNorm := 0, activationEntropy := 0 }
             outcome := "failed" } : Episode))
        { id := "f", timestamp := 1, failureType := "none"
          signalSnapshot := { gradientNorm := 0, activationEntropy := 0 }
          outcome := "failed" }
      = (List.replicate 100
          ({ id := "e", timestamp := 0, failureType := "none"
             signalSnapshot := { gradientNorm := 0, activationEntropy := 0 }
             outcome := "failed" } : Episode)).tail
        ++ [{ id := "f", timestamp := 1, failureType := "none"
              signalSnapshot := { gradientNorm := 0, activationEntropy := 0 }
              outcome := "failed" }]) :=
  ⟨addEpisode_capacity_fifo.1 0 [],
    addEpisode_capacity_fifo.2 _ _ (by simp)⟩

end EpisodeMemoryTheorems

